import Mathlib

/-!
Shallow embedding of `src/utils/calculations.ts` over exact arithmetic.

Numeric values are modelled as rationals (`ℚ`) for the generators that perform
only field operations, and as reals (`ℝ`) for the generators that call
`Math.exp` / `Math.pow`.  `Number(v.toFixed(n))` is modelled as rounding to
`n` decimal places, ties towards `+∞` (JavaScript's `toFixed` picks the larger
candidate integer on a tie).  The unbounded `for` loops of the source (whose
iteration count depends on accumulating numeric loop variables) are embedded as
fuel-indexed recursions; a fuel of 100 is always strictly larger than the
number of iterations the source performs whenever the source terminates, and
dedicated lemmas characterise the exact iteration counts.

The exact-arithmetic idealization is behaviourally faithful wherever the source
has a margin that binary64 rounding cannot bridge (the Rayleigh cutoff, the
integer-stepped transient loops, every concrete value proven here).  It is not
faithful to the iteration count of the two loops that accumulate a fractional
step (`mcGo`, `antoineGo`): binary64 accumulation makes the running program exit
those loops one iteration earlier on many inputs (always, for `mcGo`).  Theorems
below therefore assert only count bounds that hold in both semantics, except
where a theorem explicitly documents that it states the intended exact-arithmetic
behaviour in support of a recorded code bug.
-/

/-- Rounding to `n` decimal places, as performed by `Number(v.toFixed(n))`. -/
def roundTo {K : Type} [LinearOrderedField K] [FloorRing K] (n : ℕ) (x : K) : K :=
  (round (x * 10 ^ n) : ℤ) / 10 ^ n

/-- Antoine constants of one substance (`AntoineParams` in `src/types.ts`). -/
structure AntoineParams where
  name : String
  A : ℚ
  B : ℚ
  C : ℚ

/-- The built-in substance catalog (`SUBSTANCES` in the source). -/
def SUBSTANCES : List AntoineParams := [
  ⟨"Water", 8.07131, 1730.63, 233.426⟩,
  ⟨"Ethanol", 8.20417, 1642.89, 230.300⟩,
  ⟨"Methanol", 7.9705, 1521.23, 233.97⟩,
  ⟨"Acetone", 7.02447, 1161.0, 224.0⟩,
  ⟨"Benzene", 6.90565, 1211.033, 220.790⟩,
  ⟨"Toluene", 6.95334, 1343.943, 219.377⟩]

/-- Antoine equation: `P = 10 ^ (A - B / (T + C))`, pressure in mmHg. -/
noncomputable def calculateVaporPressure (tempC : ℚ) (params : AntoineParams) : ℝ :=
  let logP : ℚ := params.A - params.B / (tempC + params.C)
  (10 : ℝ) ^ (logP : ℝ)

/-- One row of the Antoine curve: `{temperature, pressure}`. -/
structure AntoinePoint where
  temperature : ℚ
  pressure : ℝ

/-- The loop `for (let t = minT; t <= maxT; t += step)` of `generateAntoineData`,
embedded with fuel over exact rational arithmetic.  Under exact arithmetic the
loop runs 51 iterations for `minT < maxT`; in the source's binary64 arithmetic
the accumulated `t` can overshoot `maxT` and drop the final point (50 points on
many ordinary ranges, e.g. `[0, 0.5]` or `[20, 80]`).  Claim theorems therefore
assert only the count bound `≤ 51`, never the exact count. -/
noncomputable def antoineGo (params : AntoineParams) (maxT step : ℚ) :
    ℕ → ℚ → List AntoinePoint
  | 0, _ => []
  | fuel + 1, t =>
    if t ≤ maxT then
      ⟨roundTo 1 t, roundTo 2 (calculateVaporPressure t params)⟩ ::
        antoineGo params maxT step fuel (t + step)
    else []

/-- `generateAntoineData` from the source. -/
noncomputable def generateAntoineData (params : AntoineParams) (minT maxT : ℚ) :
    List AntoinePoint :=
  let step := (maxT - minT) / 50
  antoineGo params maxT step 100 minT

/-- Equilibrium curve: `y = (alpha * x) / (1 + (alpha - 1) * x)`. -/
def calculateEquilibriumY (x alpha : ℚ) : ℚ :=
  (alpha * x) / (1 + (alpha - 1) * x)

/-- One row of the McCabe-Thiele diagram: `{x, yEq, yOp, xLine}`. -/
structure MCPoint where
  x : ℚ
  yEq : ℚ
  yOp : Option ℚ
  xLine : ℚ

/-- The loop `for (let x = 0; x <= 1.0; x += 0.02)` of `generateMcCabeThieleData`,
embedded with fuel over exact rational arithmetic.  Under exact arithmetic the
loop runs 51 iterations (`x = 0, 0.02, ..., 1.0`); in the source's binary64
arithmetic fifty additions of `0.02` reach `1.0000000000000004 > 1.0`, so the
running program always emits 50 points and never the `x = 1.0` point that the
source comment (points from x=0 to x=1) intends — recorded as the code bug of
the point-count claim.  Other claim theorems assert only count bounds that hold
in both semantics. -/
def mcGo (alpha R xD : ℚ) : ℕ → ℚ → List MCPoint
  | 0, _ => []
  | fuel + 1, x =>
    if x ≤ 1 then
      let yEq := calculateEquilibriumY x alpha
      let yOp : Option ℚ := if x ≤ xD then some ((R / (R + 1)) * x + xD / (R + 1)) else none
      ⟨roundTo 2 x, roundTo 3 yEq, yOp.map (roundTo 3), roundTo 2 x⟩ ::
        mcGo alpha R xD fuel (x + 0.02)
    else []

/-- `generateMcCabeThieleData` from the source. -/
def generateMcCabeThieleData (alpha R xD : ℚ) : List MCPoint :=
  mcGo alpha R xD 100 0

/-- One row of the heating curve: `{time, temperature}`. -/
structure HeatingPoint where
  time : ℕ
  temperature : ℝ

/-- `generateHeatingData` from the source: `T(t) = tMax - (tMax - t0) * e^(-k t)`,
one point per whole minute `t = 0, ..., timeMinutes`. -/
noncomputable def generateHeatingData (t0 tMax k : ℝ) (timeMinutes : ℕ) : List HeatingPoint :=
  (List.range (timeMinutes + 1)).map fun t =>
    ⟨t, roundTo 2 (tMax - (tMax - t0) * Real.exp (-k * t))⟩

/-- One row of the Rayleigh simulation:
`{percentDistilled, residueComposition, distillateComposition}`. -/
structure RayleighPoint where
  percentDistilled : ℚ
  residueComposition : ℚ
  distillateComposition : ℚ

/-- The loop `for (let distilled = step; distilled < initialF * 0.95; distilled += step)`
of `generateRayleighData`, embedded with fuel.  State: remaining mass `W`, residue
composition `x`, cumulative distilled mass `distilled`. -/
def rayleighGo (alpha initialF step : ℚ) : ℕ → ℚ → ℚ → ℚ → List RayleighPoint
  | 0, _, _, _ => []
  | fuel + 1, W, x, distilled =>
    if distilled < initialF * 0.95 then
      let y := calculateEquilibriumY x alpha
      let W_new := W - step
      let x_new := (x * W - y * step) / W_new
      let x' := max 0 x_new
      let percentDistilled := (distilled / initialF) * 100
      ⟨roundTo 1 percentDistilled, roundTo 3 x', roundTo 3 y⟩ ::
        rayleighGo alpha initialF step fuel W_new x' (distilled + step)
    else []

/-- `generateRayleighData` from the source. -/
def generateRayleighData (alpha initialF initialXf : ℚ) : List RayleighPoint :=
  let step := initialF / 50
  ⟨0, initialXf, calculateEquilibriumY initialXf alpha⟩ ::
    rayleighGo alpha initialF step 100 initialF initialXf step

/-- One row of the conductivity curve: `{time, conductivity}`. -/
structure ConductivityPoint where
  time : ℕ
  conductivity : ℝ

/-- `generateConductivityData` from the source:
`C(t) = final + (initial - final) * e^(-k t)`. -/
noncomputable def generateConductivityData (initial final k : ℝ) (timeMinutes : ℕ) :
    List ConductivityPoint :=
  (List.range (timeMinutes + 1)).map fun t =>
    ⟨t, roundTo 2 (final + (initial - final) * Real.exp (-k * t))⟩

/-- One row of the flow curve: `{time, flowRate, totalVolume}`. -/
structure FlowPoint where
  time : ℕ
  flowRate : ℝ
  totalVolume : ℝ

/-- The loop of `generateFlowData`, carrying the accumulated volume `totalVol`;
the loop variable `t` counts whole minutes, so the loop runs `fuel` times. -/
noncomputable def flowGo (mLPerMinute : ℝ) : ℕ → ℕ → ℝ → List FlowPoint
  | 0, _, _ => []
  | fuel + 1, t, totalVol =>
    let currentFlow : ℝ := if t = 0 then 0 else mLPerMinute * (1 - Real.exp (-0.5 * t))
    let totalVol' := if 0 < t then totalVol + currentFlow else totalVol
    ⟨t, roundTo 1 currentFlow, roundTo 2 (totalVol' / 1000)⟩ ::
      flowGo mLPerMinute fuel (t + 1) totalVol'

/-- `generateFlowData` from the source. -/
noncomputable def generateFlowData (powerWatts efficiency : ℝ) (timeMinutes : ℕ) :
    List FlowPoint :=
  let joulesPerGram : ℝ := 2594
  let gramsPerSecond := (powerWatts * efficiency) / joulesPerGram
  let mLPerMinute := gramsPerSecond * 60
  flowGo mLPerMinute (timeMinutes + 1) 0 0

/-- One row of the power curve: `{time, energy, cost}`. -/
structure PowerPoint where
  time : ℕ
  energy : ℚ
  cost : ℚ

/-- `generatePowerData` from the source: closed form per minute. -/
def generatePowerData (powerWatts costPerKwh : ℚ) (timeMinutes : ℕ) : List PowerPoint :=
  (List.range (timeMinutes + 1)).map fun (t : ℕ) =>
    let hours : ℚ := (t : ℚ) / 60
    let kWh := (powerWatts * hours) / 1000
    let cost := kWh * costPerKwh
    ⟨t, roundTo 3 kWh, roundTo 2 cost⟩

/-! ### Reference definitions used to state the loop characterizations -/

/-- The point the McCabe-Thiele loop emits at its `i`-th iteration (`x = i * 0.02`). -/
def mcPointAux (alpha R xD : ℚ) (i : ℕ) : MCPoint :=
  let x : ℚ := (i : ℚ) * 0.02
  ⟨roundTo 2 x, roundTo 3 (calculateEquilibriumY x alpha),
   if x ≤ xD then some (roundTo 3 ((R / (R + 1)) * x + xD / (R + 1))) else none,
   roundTo 2 x⟩

/-- The point the Antoine loop emits at its `i`-th iteration
(`t = minT + i * (maxT - minT) / 50`). -/
noncomputable def antoinePointAux (params : AntoineParams) (minT maxT : ℚ) (i : ℕ) :
    AntoinePoint :=
  let t : ℚ := minT + (i : ℚ) * ((maxT - minT) / 50)
  ⟨roundTo 1 t, roundTo 2 (calculateVaporPressure t params)⟩

/-- The residue-composition state of the Rayleigh loop: `rayleighX ... k` is the value
of the loop variable `x` after `k` executions of the loop body. -/
def rayleighX (alpha initialF initialXf : ℚ) : ℕ → ℚ
  | 0 => initialXf
  | k + 1 =>
    let x := rayleighX alpha initialF initialXf k
    let y := calculateEquilibriumY x alpha
    let step := initialF / 50
    let W := initialF - (k : ℚ) * step
    max 0 ((x * W - y * step) / (W - step))

/-- The point the Rayleigh loop emits at its `i`-th iteration (0-based),
i.e. the `(i+1)`-st point of the generated series. -/
def rayleighPointAux (alpha initialF initialXf : ℚ) (i : ℕ) : RayleighPoint :=
  ⟨roundTo 1 (2 * ((i : ℚ) + 1)),
   roundTo 3 (rayleighX alpha initialF initialXf (i + 1)),
   roundTo 3 (calculateEquilibriumY (rayleighX alpha initialF initialXf i) alpha)⟩

/-- The point the flow loop emits at minute `t`: the current (warm-up) flow rate and
the left-Riemann cumulative volume of the per-minute flow rates of minutes `1..t`. -/
noncomputable def flowPointAux (mL : ℝ) (t : ℕ) : FlowPoint :=
  ⟨t, roundTo 1 (if t = 0 then 0 else mL * (1 - Real.exp (-0.5 * t))),
   roundTo 2 ((∑ s in Finset.Icc 1 t, mL * (1 - Real.exp (-0.5 * s))) / 1000)⟩


/-! ### Basic properties of the rounding function -/

theorem round_le_round {K : Type} [LinearOrderedField K] [FloorRing K] {x y : K}
    (h : x ≤ y) : round x ≤ round y := by
  rw [round_eq, round_eq]
  exact Int.floor_le_floor (by linarith)

theorem roundTo_mono {K : Type} [LinearOrderedField K] [FloorRing K] (n : ℕ) {x y : K}
    (h : x ≤ y) : roundTo n x ≤ roundTo n y := by
  unfold roundTo
  have hp : (0:K) < 10 ^ n := by positivity
  apply (div_le_div_iff_of_pos_right hp).mpr
  have h2 : round (x * 10 ^ n) ≤ round (y * 10 ^ n) :=
    round_le_round (by nlinarith)
  exact_mod_cast h2

theorem roundTo_nonneg {K : Type} [LinearOrderedField K] [FloorRing K] (n : ℕ) {x : K}
    (h : 0 ≤ x) : 0 ≤ roundTo n x := by
  unfold roundTo
  have hp : (0:K) < 10 ^ n := by positivity
  apply div_nonneg _ (le_of_lt hp)
  have : (0:ℤ) ≤ round (x * 10 ^ n) := by
    rw [round_eq]
    apply Int.floor_nonneg.mpr
    positivity
  exact_mod_cast this

theorem roundTo_eq_of {K : Type} [LinearOrderedField K] [FloorRing K] (n : ℕ) (x : K) (m : ℤ)
    (h1 : (m : K) ≤ x * 10 ^ n + 1/2) (h2 : x * 10 ^ n + 1/2 < m + 1) :
    roundTo n x = (m : K) / 10 ^ n := by
  unfold roundTo
  congr 1
  have : round (x * 10 ^ n) = m := by
    rw [round_eq]
    exact Int.floor_eq_iff.mpr ⟨h1, by exact_mod_cast h2⟩
  exact_mod_cast this

theorem roundTo_close {K : Type} [LinearOrderedField K] [FloorRing K] (n : ℕ) (x : K) :
    |roundTo n x - x| ≤ 1 / (2 * 10 ^ n) := by
  unfold roundTo
  have hp : (0:K) < 10 ^ n := by positivity
  have h : |x * 10 ^ n - round (x * 10 ^ n)| ≤ 1 / 2 := abs_sub_round _
  have hrw : (round (x * 10 ^ n) : K) / 10 ^ n - x = -((x * 10 ^ n - round (x * 10 ^ n)) / 10 ^ n) := by
    field_simp
    ring
  rw [hrw, abs_neg, abs_div, abs_of_pos hp, div_le_div_iff₀ hp (by positivity)]
  calc |x * 10 ^ n - (round (x * 10 ^ n) : K)| * (2 * 10 ^ n)
      ≤ (1/2) * (2 * 10 ^ n) := by
        apply mul_le_mul_of_nonneg_right h (by positivity)
    _ = 1 * 10 ^ n := by ring

theorem roundTo_zero {K : Type} [LinearOrderedField K] [FloorRing K] (n : ℕ) :
    roundTo n (0 : K) = 0 := by
  unfold roundTo
  simp

/-! ### Characterization of the McCabe-Thiele loop -/

theorem mcGo_eq (alpha R xD : ℚ) :
    ∀ (fuel i : ℕ) (x : ℚ), x = (i : ℚ) * 0.02 → 51 - i ≤ fuel →
      mcGo alpha R xD fuel x =
        (List.range (51 - i)).map (fun j => mcPointAux alpha R xD (i + j)) := by
  intro fuel
  induction fuel with
  | zero =>
    intro i x hx hfuel
    have h51 : 51 - i = 0 := Nat.le_zero.mp hfuel
    rw [h51]
    rfl
  | succ f ih =>
    intro i x hx hfuel
    by_cases hi : i ≤ 50
    · have hguard : x ≤ 1 := by
        rw [hx]
        have : (i : ℚ) ≤ 50 := by exact_mod_cast hi
        nlinarith
      have hcount : 51 - i = (50 - i) + 1 := by omega
      rw [mcGo, if_pos hguard, hcount, List.range_succ_eq_map, List.map_cons, List.map_map]
      simp only [List.cons.injEq]
      refine ⟨?_, ?_⟩
      · simp only [mcPointAux, Nat.add_zero, ← hx, MCPoint.mk.injEq, true_and, and_true]
        rcases le_or_lt x xD with h | h
        · rw [if_pos h, if_pos h, Option.map_some']
        · rw [if_neg (not_le.mpr h), if_neg (not_le.mpr h), Option.map_none']
      · have htail := ih (i + 1) (x + 0.02) (by push_cast [hx]; ring) (by omega)
        rw [htail]
        have hc : 50 - i = 51 - (i + 1) := by omega
        rw [← hc]
        apply List.map_congr_left
        intro j _
        have hj : i + 1 + j = i + (Nat.succ j) := by omega
        simp only [Function.comp_apply, hj]
    · have hguard : ¬ x ≤ 1 := by
        rw [hx]
        have h51 : (51 : ℚ) ≤ (i : ℚ) := by exact_mod_cast (by omega : 51 ≤ i)
        intro hcon
        nlinarith
      have h0 : 51 - i = 0 := by omega
      rw [mcGo, if_neg hguard, h0]
      rfl

theorem generateMcCabeThieleData_eq (alpha R xD : ℚ) :
    generateMcCabeThieleData alpha R xD =
      (List.range 51).map (mcPointAux alpha R xD) := by
  unfold generateMcCabeThieleData
  have h := mcGo_eq alpha R xD 100 0 0 (by norm_num) (by norm_num)
  rw [h]
  norm_num

/-! ### Characterization of the Antoine loop -/

theorem antoineGo_eq (params : AntoineParams) (minT maxT : ℚ) (hT : minT < maxT) :
    ∀ (fuel i : ℕ) (t : ℚ), t = minT + (i : ℚ) * ((maxT - minT) / 50) → 51 - i ≤ fuel →
      antoineGo params maxT ((maxT - minT) / 50) fuel t =
        (List.range (51 - i)).map (fun j => antoinePointAux params minT maxT (i + j)) := by
  intro fuel
  induction fuel with
  | zero =>
    intro i t ht hfuel
    have h51 : 51 - i = 0 := Nat.le_zero.mp hfuel
    rw [h51]
    rfl
  | succ f ih =>
    intro i t ht hfuel
    have hstep : (0:ℚ) < (maxT - minT) / 50 := by linarith
    by_cases hi : i ≤ 50
    · have hguard : t ≤ maxT := by
        rw [ht]
        have hle : (i : ℚ) ≤ 50 := by exact_mod_cast hi
        nlinarith
      have hcount : 51 - i = (50 - i) + 1 := by omega
      rw [antoineGo, if_pos hguard, hcount, List.range_succ_eq_map, List.map_cons, List.map_map]
      simp only [List.cons.injEq]
      refine ⟨?_, ?_⟩
      · simp only [antoinePointAux, Nat.add_zero, ← ht]
      · have htail := ih (i + 1) (t + (maxT - minT) / 50) (by push_cast [ht]; ring) (by omega)
        rw [htail]
        have hc : 50 - i = 51 - (i + 1) := by omega
        rw [← hc]
        apply List.map_congr_left
        intro j _
        have hj : i + 1 + j = i + (Nat.succ j) := by omega
        simp only [Function.comp_apply, hj]
    · have hguard : ¬ t ≤ maxT := by
        rw [ht]
        have h51 : (51 : ℚ) ≤ (i : ℚ) := by exact_mod_cast (by omega : 51 ≤ i)
        intro hcon
        nlinarith
      have h0 : 51 - i = 0 := by omega
      rw [antoineGo, if_neg hguard, h0]
      rfl

theorem generateAntoineData_eq (params : AntoineParams) (minT maxT : ℚ) (hT : minT < maxT) :
    generateAntoineData params minT maxT =
      (List.range 51).map (antoinePointAux params minT maxT) := by
  unfold generateAntoineData
  have h := antoineGo_eq params minT maxT hT 100 0 minT (by norm_num) (by norm_num)
  rw [h]
  norm_num

/-! ### Characterization of the Rayleigh loop -/

/-- The Rayleigh loop guard `distilled < initialF * 0.95`, at `distilled = i * step`,
holds exactly for `i ≤ 47` (whenever `initialF > 0`). -/
theorem rayleigh_guard_iff (initialF : ℚ) (hF : 0 < initialF) (i : ℕ) :
    (i : ℚ) * (initialF / 50) < initialF * 0.95 ↔ i ≤ 47 := by
  constructor
  · intro h
    by_contra hcon
    have h48 : (48 : ℚ) ≤ (i : ℚ) := by exact_mod_cast (by omega : 48 ≤ i)
    nlinarith
  · intro h
    have h47 : (i : ℚ) ≤ 47 := by exact_mod_cast h
    nlinarith

theorem rayleighGo_eq (alpha initialF initialXf : ℚ) (hF : 0 < initialF) :
    ∀ (fuel i : ℕ) (W x d : ℚ),
      W = initialF - (i : ℚ) * (initialF / 50) →
      x = rayleighX alpha initialF initialXf i →
      d = ((i : ℚ) + 1) * (initialF / 50) →
      47 - i ≤ fuel →
      rayleighGo alpha initialF (initialF / 50) fuel W x d =
        (List.range (47 - i)).map (fun j => rayleighPointAux alpha initialF initialXf (i + j)) := by
  intro fuel
  induction fuel with
  | zero =>
    intro i W x d hW hx hd hfuel
    have h47 : 47 - i = 0 := Nat.le_zero.mp hfuel
    rw [h47]
    rfl
  | succ f ih =>
    intro i W x d hW hx hd hfuel
    have hd' : d = ((i + 1 : ℕ) : ℚ) * (initialF / 50) := by push_cast; exact hd
    by_cases hi : i ≤ 46
    · have hguard : d < initialF * 0.95 := by
        rw [hd']
        exact (rayleigh_guard_iff initialF hF (i + 1)).mpr (by omega)
      have hcount : 47 - i = (46 - i) + 1 := by omega
      have hX : rayleighX alpha initialF initialXf (i + 1) =
          max 0 ((x * W - calculateEquilibriumY x alpha * (initialF / 50)) /
            (W - initialF / 50)) := by
        rw [hx, hW]
        simp only [rayleighX]
      have hpd : (d / initialF) * 100 = 2 * ((i : ℚ) + 1) := by
        rw [hd]
        field_simp
        ring
      rw [rayleighGo, if_pos hguard, hcount, List.range_succ_eq_map, List.map_cons,
        List.map_map]
      simp only [List.cons.injEq]
      refine ⟨?_, ?_⟩
      · simp only [rayleighPointAux, Nat.add_zero, RayleighPoint.mk.injEq]
        refine ⟨by rw [hpd], by rw [hX], by rw [hx]⟩
      · have htail := ih (i + 1) (W - initialF / 50) (max 0 ((x * W -
            calculateEquilibriumY x alpha * (initialF / 50)) / (W - initialF / 50)))
            (d + initialF / 50) (by rw [hW]; push_cast; ring) (by rw [hX])
            (by rw [hd]; push_cast; ring) (by omega)
        rw [htail]
        have hc : 46 - i = 47 - (i + 1) := by omega
        rw [← hc]
        apply List.map_congr_left
        intro j _
        have hj : i + 1 + j = i + (Nat.succ j) := by omega
        simp only [Function.comp_apply, hj]
    · have hguard : ¬ d < initialF * 0.95 := by
        rw [hd']
        intro hcon
        have := (rayleigh_guard_iff initialF hF (i + 1)).mp hcon
        omega
      have h0 : 47 - i = 0 := by omega
      rw [rayleighGo, if_neg hguard, h0]
      rfl

theorem generateRayleighData_eq (alpha initialF initialXf : ℚ) (hF : 0 < initialF) :
    generateRayleighData alpha initialF initialXf =
      ⟨0, initialXf, calculateEquilibriumY initialXf alpha⟩ ::
        (List.range 47).map (rayleighPointAux alpha initialF initialXf) := by
  simp only [generateRayleighData]
  have h := rayleighGo_eq alpha initialF initialXf hF 100 0 initialF initialXf
    (initialF / 50) (by norm_num) (rfl) (by norm_num) (by norm_num)
  rw [h]
  norm_num

/-! ### Invariants of the Rayleigh recurrence -/

/-- For valid parameters the equilibrium value is at least the liquid composition:
the distillate is richer in the volatile component. -/
theorem equilibrium_ge_self (x alpha : ℚ) (ha : 1 < alpha) (hx0 : 0 ≤ x) (hx1 : x ≤ 1) :
    x ≤ calculateEquilibriumY x alpha := by
  unfold calculateEquilibriumY
  have hD : (0:ℚ) < 1 + (alpha - 1) * x := by nlinarith
  rw [le_div_iff₀ hD]
  nlinarith [mul_nonneg (mul_nonneg (by linarith : (0:ℚ) ≤ alpha - 1) hx0)
    (by linarith : (0:ℚ) ≤ 1 - x)]

/-- One step of the Rayleigh recurrence stays within `[0, x]` (for `k ≤ 46`). -/
theorem rayleighX_step (alpha initialF initialXf : ℚ) (ha : 1 < alpha)
    (hF : 0 < initialF) (h1 : initialXf < 1) (k : ℕ) (hk : k ≤ 46)
    (hx0 : 0 ≤ rayleighX alpha initialF initialXf k)
    (hx1 : rayleighX alpha initialF initialXf k ≤ initialXf) :
    0 ≤ rayleighX alpha initialF initialXf (k + 1) ∧
      rayleighX alpha initialF initialXf (k + 1) ≤ rayleighX alpha initialF initialXf k := by
  have hXeq : rayleighX alpha initialF initialXf (k + 1) =
      max 0 ((rayleighX alpha initialF initialXf k *
          (initialF - (k : ℚ) * (initialF / 50)) -
        calculateEquilibriumY (rayleighX alpha initialF initialXf k) alpha * (initialF / 50)) /
        (initialF - (k : ℚ) * (initialF / 50) - initialF / 50)) := by
    simp only [rayleighX]
  set x := rayleighX alpha initialF initialXf k with hxdef
  have hk46 : (k : ℚ) ≤ 46 := by exact_mod_cast hk
  have hW : (0:ℚ) < initialF - (k : ℚ) * (initialF / 50) := by nlinarith
  have hWnew : (0:ℚ) < initialF - (k : ℚ) * (initialF / 50) - initialF / 50 := by nlinarith
  have hy : x ≤ calculateEquilibriumY x alpha :=
    equilibrium_ge_self x alpha ha hx0 (by linarith)
  have hpre : (x * (initialF - (k : ℚ) * (initialF / 50)) -
      calculateEquilibriumY x alpha * (initialF / 50)) /
      (initialF - (k : ℚ) * (initialF / 50) - initialF / 50) ≤ x := by
    rw [div_le_iff₀ hWnew]
    nlinarith
  constructor
  · rw [hXeq]
    exact le_max_left _ _
  · rw [hXeq]
    exact max_le_max (le_refl 0) hpre |>.trans_eq (max_eq_right hx0)

/-- The Rayleigh residue composition stays within `[0, initialXf]` for the whole run. -/
theorem rayleighX_bounds (alpha initialF initialXf : ℚ) (ha : 1 < alpha)
    (hF : 0 < initialF) (h0 : 0 < initialXf) (h1 : initialXf < 1) :
    ∀ k : ℕ, k ≤ 47 →
      0 ≤ rayleighX alpha initialF initialXf k ∧
        rayleighX alpha initialF initialXf k ≤ initialXf := by
  intro k
  induction k with
  | zero => intro _; exact ⟨le_of_lt h0, le_refl _⟩
  | succ m ih =>
    intro hm
    obtain ⟨ha0, ha1⟩ := ih (by omega)
    obtain ⟨hb0, hb1⟩ :=
      rayleighX_step alpha initialF initialXf ha hF h1 m (by omega) ha0 ha1
    exact ⟨hb0, hb1.trans ha1⟩

/-- The Rayleigh residue composition is non-increasing along the run. -/
theorem rayleighX_mono (alpha initialF initialXf : ℚ) (ha : 1 < alpha)
    (hF : 0 < initialF) (h0 : 0 < initialXf) (h1 : initialXf < 1)
    (k : ℕ) (hk : k ≤ 46) :
    rayleighX alpha initialF initialXf (k + 1) ≤ rayleighX alpha initialF initialXf k := by
  obtain ⟨ha0, ha1⟩ :=
    rayleighX_bounds alpha initialF initialXf ha hF h0 h1 k (by omega)
  exact (rayleighX_step alpha initialF initialXf ha hF h1 k hk ha0 ha1).2

/-! ### Characterization of the flow loop -/

theorem flowGo_eq (mL : ℝ) :
    ∀ (fuel t : ℕ) (acc : ℝ),
      acc = ∑ s in Finset.Icc 1 (t - 1), mL * (1 - Real.exp (-0.5 * s)) →
      flowGo mL fuel t acc =
        (List.range fuel).map (fun j => flowPointAux mL (t + j)) := by
  intro fuel
  induction fuel with
  | zero => intro t acc hacc; rfl
  | succ f ih =>
    intro t acc hacc
    have hvol : (if 0 < t then acc + (if t = 0 then 0 else mL * (1 - Real.exp (-0.5 * t)))
        else acc) = ∑ s in Finset.Icc 1 t, mL * (1 - Real.exp (-0.5 * s)) := by
      cases t with
      | zero =>
        rw [if_neg (by omega)]
        rw [hacc]
      | succ m =>
        rw [if_pos (by omega), if_neg (by omega), hacc]
        have hm : m + 1 - 1 = m := by omega
        rw [hm]
        rw [Finset.sum_Icc_succ_top (by omega : 1 ≤ m + 1)]
    rw [flowGo]
    simp only [List.range_succ_eq_map, List.map_cons, List.map_map, List.cons.injEq]
    refine ⟨?_, ?_⟩
    · simp only [flowPointAux, Nat.add_zero, FlowPoint.mk.injEq, true_and]
      rw [hvol]
    · have htail := ih (t + 1) (if 0 < t then acc +
          (if t = 0 then 0 else mL * (1 - Real.exp (-0.5 * t))) else acc)
          (by rw [hvol]; norm_num)
      rw [htail]
      apply List.map_congr_left
      intro j _
      have hj : t + 1 + j = t + (Nat.succ j) := by omega
      simp only [Function.comp_apply, hj]

theorem generateFlowData_eq (powerWatts efficiency : ℝ) (timeMinutes : ℕ) :
    generateFlowData powerWatts efficiency timeMinutes =
      (List.range (timeMinutes + 1)).map
        (flowPointAux (powerWatts * efficiency / 2594 * 60)) := by
  simp only [generateFlowData]
  have h := flowGo_eq (powerWatts * efficiency / 2594 * 60) (timeMinutes + 1) 0 0
    (by norm_num)
  rw [h]
  norm_num

/-! ### Further helper lemmas -/

theorem getElem_map_range {β : Type} (n i : ℕ) (f : ℕ → β) (h : i < n) :
    ((List.range n).map f)[i]? = some (f i) := by
  simp [List.getElem?_map, List.getElem?_range, h]

/-- If the Rayleigh loop guard fails at entry, the loop emits nothing
(whatever the fuel). -/
theorem rayleighGo_nil (alpha initialF step : ℚ) (fuel : ℕ) (W x d : ℚ)
    (h : ¬ d < initialF * 0.95) :
    rayleighGo alpha initialF step fuel W x d = [] := by
  cases fuel with
  | zero => rfl
  | succ f => rw [rayleighGo, if_neg h]

/-- Vapor pressure is strictly increasing in temperature on `T + C > 0` (for `B > 0`). -/
theorem vaporPressure_strictMono (params : AntoineParams) (hB : 0 < params.B)
    {t1 t2 : ℚ} (hC1 : 0 < t1 + params.C) (h12 : t1 < t2) :
    calculateVaporPressure t1 params < calculateVaporPressure t2 params := by
  simp only [calculateVaporPressure]
  apply (Real.rpow_lt_rpow_left_iff (by norm_num : (1:ℝ) < 10)).mpr
  have hlog : params.A - params.B / (t1 + params.C) <
      params.A - params.B / (t2 + params.C) := by
    have hd : params.B / (t2 + params.C) < params.B / (t1 + params.C) :=
      div_lt_div_of_pos_left hB hC1 (by linarith)
    linarith
  exact_mod_cast hlog

/-- Numerical bounds on `e ^ 6`, used for the concrete heating-curve scenario. -/
theorem exp_six_bounds : (403:ℝ) < Real.exp 6 ∧ Real.exp 6 < 404 := by
  have h6 : Real.exp 6 = Real.exp 1 ^ (6:ℕ) := by
    rw [← Real.exp_nat_mul]
    norm_num
  constructor
  · rw [h6]
    calc (403:ℝ) < 2.7182818283 ^ (6:ℕ) := by norm_num
      _ < Real.exp 1 ^ (6:ℕ) := by
          apply pow_lt_pow_left₀ Real.exp_one_gt_d9 (by norm_num)
          norm_num
  · rw [h6]
    calc Real.exp 1 ^ (6:ℕ) < 2.7182818286 ^ (6:ℕ) := by
          apply pow_lt_pow_left₀ Real.exp_one_lt_d9 (Real.exp_pos 1).le
          norm_num
      _ < 404 := by norm_num

/-! ### Claim theorems -/

/-- C8: the equilibrium primitive satisfies `equilibrium(x, 1) = x` for every `x`,
and `equilibrium(0, alpha) = 0` and `equilibrium(1, alpha) = 1` for every `alpha > 0`. -/
theorem calculateEquilibriumY_spec :
    (∀ x : ℚ, calculateEquilibriumY x 1 = x) ∧
    (∀ alpha : ℚ, 0 < alpha →
      calculateEquilibriumY 0 alpha = 0 ∧ calculateEquilibriumY 1 alpha = 1) := by
  constructor
  · intro x
    unfold calculateEquilibriumY
    norm_num
  · intro alpha halpha
    constructor
    · unfold calculateEquilibriumY
      norm_num
    · unfold calculateEquilibriumY
      have h : 1 + (alpha - 1) * 1 = alpha := by ring
      rw [h, mul_one]
      exact div_self (ne_of_gt halpha)

/-- Witness for C8 at `alpha = 2`. -/
theorem calculateEquilibriumY_spec_witness :
    (0:ℚ) < 2 ∧ calculateEquilibriumY 0 2 = 0 ∧ calculateEquilibriumY 1 2 = 1 :=
  ⟨by norm_num, calculateEquilibriumY_spec.2 2 (by norm_num)⟩

/-- C7: every point of `generatePowerData` satisfies the closed forms
`kWh(t) = powerWatts * (t/60) / 1000` and `cost(t) = kWh(t) * costPerKwh` exactly,
with no stepwise accumulation: the point at minute `t` depends only on `t` and the
inputs (in particular it is independent of the duration). -/
theorem generatePowerData_spec :
    (∀ (powerWatts costPerKwh : ℚ) (timeMinutes : ℕ),
      generatePowerData powerWatts costPerKwh timeMinutes =
        (List.range (timeMinutes + 1)).map (fun (t : ℕ) =>
          ⟨t, roundTo 3 (powerWatts * ((t : ℚ) / 60) / 1000),
           roundTo 2 (powerWatts * ((t : ℚ) / 60) / 1000 * costPerKwh)⟩)) ∧
    (∀ (powerWatts costPerKwh : ℚ) (d1 d2 t : ℕ), t ≤ d1 → t ≤ d2 →
      (generatePowerData powerWatts costPerKwh d1)[t]? =
        (generatePowerData powerWatts costPerKwh d2)[t]?) := by
  have hchar : ∀ (powerWatts costPerKwh : ℚ) (timeMinutes : ℕ),
      generatePowerData powerWatts costPerKwh timeMinutes =
        (List.range (timeMinutes + 1)).map (fun (t : ℕ) =>
          ⟨t, roundTo 3 (powerWatts * ((t : ℚ) / 60) / 1000),
           roundTo 2 (powerWatts * ((t : ℚ) / 60) / 1000 * costPerKwh)⟩) := by
    intro p c d
    rfl
  refine ⟨hchar, ?_⟩
  intro p c d1 d2 t h1 h2
  rw [hchar, hchar, getElem_map_range _ _ _ (by omega), getElem_map_range _ _ _ (by omega)]

/-- Witness for C7: the point at minute 3 agrees across durations 5 and 7. -/
theorem generatePowerData_spec_witness :
    ((3:ℕ) ≤ 5 ∧ (3:ℕ) ≤ 7) ∧
      (generatePowerData 1000 2 5)[3]? = (generatePowerData 1000 2 7)[3]? :=
  ⟨⟨by norm_num, by norm_num⟩,
    generatePowerData_spec.2 1000 2 5 7 3 (by norm_num) (by norm_num)⟩

/-- C5: heating and conductivity emit one point per whole minute following
`value(t) = target + (initial - target) * e^(-k t)` rounded to 2 decimals, with
`value(0) = initial`; concretely `generateHeatingData 20 100 0.1 60` starts at
`{time 0, temperature 20.00}` and ends at `{time 60, temperature 99.80}`. -/
theorem generateHeatingData_spec :
    (∀ (t0 tMax k : ℝ) (timeMinutes : ℕ),
      generateHeatingData t0 tMax k timeMinutes =
        (List.range (timeMinutes + 1)).map (fun (t : ℕ) =>
          ⟨t, roundTo 2 (tMax + (t0 - tMax) * Real.exp (-k * t))⟩)) ∧
    (∀ (initial final k : ℝ) (timeMinutes : ℕ),
      generateConductivityData initial final k timeMinutes =
        (List.range (timeMinutes + 1)).map (fun (t : ℕ) =>
          ⟨t, roundTo 2 (final + (initial - final) * Real.exp (-k * t))⟩)) ∧
    (∀ t0 tMax k : ℝ, tMax + (t0 - tMax) * Real.exp (-k * 0) = t0) ∧
    (∀ (t0 tMax k : ℝ) (timeMinutes : ℕ),
      (generateHeatingData t0 tMax k timeMinutes)[0]? = some ⟨0, roundTo 2 t0⟩) ∧
    (generateHeatingData 20 100 0.1 60)[0]? = some ⟨0, 20⟩ ∧
    (generateHeatingData 20 100 0.1 60)[60]? = some ⟨60, 99.80⟩ := by
  have hpoint0 : ∀ (t0 tMax k : ℝ),
      tMax - (tMax - t0) * Real.exp (-k * ((0:ℕ):ℝ)) = t0 := by
    intro t0 tMax k
    norm_num
  refine ⟨?_, ?_, ?_, ?_, ?_, ?_⟩
  · intro t0 tMax k d
    unfold generateHeatingData
    apply List.map_congr_left
    intro t _
    congr 2
    ring
  · intro i f k d
    rfl
  · intro t0 tMax k
    norm_num
  · intro t0 tMax k d
    unfold generateHeatingData
    rw [getElem_map_range _ _ _ (by omega)]
    rw [hpoint0]
  · unfold generateHeatingData
    rw [getElem_map_range _ _ _ (by omega)]
    rw [hpoint0]
    have h20 : roundTo 2 (20:ℝ) = 20 := by
      rw [roundTo_eq_of 2 (20:ℝ) 2000 (by norm_num) (by norm_num)]
      norm_num
    rw [h20]
  · unfold generateHeatingData
    rw [getElem_map_range _ _ _ (by omega)]
    have harg : -(0.1:ℝ) * ((60:ℕ):ℝ) = -6 := by norm_num
    rw [harg]
    have hlt : Real.exp (-6) < 1/403 := by
      rw [Real.exp_neg]
      rw [show (1:ℝ)/403 = 403⁻¹ by norm_num]
      exact inv_strictAnti₀ (by norm_num) exp_six_bounds.1
    have hgt : 1/404 < Real.exp (-6) := by
      rw [Real.exp_neg]
      rw [show (1:ℝ)/404 = 404⁻¹ by norm_num]
      exact inv_strictAnti₀ (Real.exp_pos 6) exp_six_bounds.2
    have hval : roundTo 2 ((100:ℝ) - (100 - 20) * Real.exp (-6)) = 9980 / 100 := by
      rw [roundTo_eq_of 2 _ 9980 (by nlinarith) (by nlinarith)]
      norm_num
    rw [hval]
    norm_num

/-- C6: `generateFlowData` emits flow rate 0 at `t = 0` and
`maxFlow * (1 - e^(-0.5 t))` at each later whole minute, where
`maxFlow = powerWatts * efficiency / 2594 * 60` mL/min, and the emitted
`totalVolume` at minute `t` is the left-Riemann cumulative sum of the per-minute
flow rates of minutes `1..t`, divided by 1000 (liters). -/
theorem generateFlowData_spec :
    (∀ (powerWatts efficiency : ℝ) (timeMinutes : ℕ),
      generateFlowData powerWatts efficiency timeMinutes =
        (List.range (timeMinutes + 1)).map (fun (t : ℕ) =>
          ⟨t, roundTo 1 (if t = 0 then 0
                else powerWatts * efficiency / 2594 * 60 * (1 - Real.exp (-0.5 * t))),
           roundTo 2 ((∑ s in Finset.Icc 1 t,
                powerWatts * efficiency / 2594 * 60 * (1 - Real.exp (-0.5 * s))) / 1000)⟩)) ∧
    (∀ (powerWatts efficiency : ℝ) (timeMinutes : ℕ),
      (generateFlowData powerWatts efficiency timeMinutes)[0]? = some ⟨0, 0, 0⟩) := by
  constructor
  · intro p e d
    rw [generateFlowData_eq]
    rfl
  · intro p e d
    rw [generateFlowData_eq, getElem_map_range _ _ _ (by omega)]
    simp only [flowPointAux]
    rw [if_pos trivial, Finset.Icc_eq_empty (by omega), Finset.sum_empty]
    norm_num [roundTo_zero]

/-- C4 (supporting a code bug): under the exact arithmetic that the source comment
(points from x=0 to x=1) intends, the McCabe-Thiele loop produces 51 points for
`x = 0, 0.02, ..., 1.0`; `yOp` is `none` exactly when `x > xD` and otherwise equals
`(R/(R+1)) * x + xD/(R+1)` rounded to 3 decimals (within `1/2000` of the exact
line value); concretely the point at `x = 0.50` of
`generateMcCabeThieleData 2.5 2 0.95` has `yEq = 0.714` and `yOp = 0.65`.
The running binary64 program deviates from this intended behaviour in exactly one
respect: its accumulated `x` overshoots `1.0` after 50 additions, so it emits only
50 points and never the `x = 1.0` point — the code bug recorded for this claim.
The remaining conjuncts (the `yOp` discipline and the `x = 0.50` scenario, whose
values have wide margins to every rounding boundary) hold of the program. -/
theorem generateMcCabeThieleData_spec (alpha R xD : ℚ) (hR : R ≠ -1)
    (hxD0 : 0 < xD) (hxD1 : xD ≤ 1) :
    (generateMcCabeThieleData alpha R xD).length = 51 ∧
    (∀ i : ℕ, i ≤ 50 →
      (generateMcCabeThieleData alpha R xD)[i]? = some (mcPointAux alpha R xD i) ∧
      ((mcPointAux alpha R xD i).yOp = none ↔ xD < (i : ℚ) * 0.02) ∧
      ((i : ℚ) * 0.02 ≤ xD →
        (mcPointAux alpha R xD i).yOp =
          some (roundTo 3 ((R / (R + 1)) * ((i : ℚ) * 0.02) + xD / (R + 1))) ∧
        |roundTo 3 ((R / (R + 1)) * ((i : ℚ) * 0.02) + xD / (R + 1)) -
          ((R / (R + 1)) * ((i : ℚ) * 0.02) + xD / (R + 1))| ≤ 1 / 2000)) ∧
    (generateMcCabeThieleData 2.5 2 0.95)[25]? = some ⟨0.5, 0.714, some 0.65, 0.5⟩ := by
  refine ⟨?_, ?_, ?_⟩
  · rw [generateMcCabeThieleData_eq]
    simp
  · intro i hi
    refine ⟨?_, ?_, ?_⟩
    · rw [generateMcCabeThieleData_eq, getElem_map_range _ _ _ (by omega)]
    · simp only [mcPointAux]
      rcases le_or_lt ((i : ℚ) * 0.02) xD with h | h
      · rw [if_pos h]
        simp only [reduceCtorEq, false_iff, not_lt]
        exact h
      · rw [if_neg (not_le.mpr h)]
        simp only [true_iff]
        exact h
    · intro h
      constructor
      · simp only [mcPointAux]
        rw [if_pos h]
      · have := roundTo_close 3 ((R / (R + 1)) * ((i : ℚ) * 0.02) + xD / (R + 1))
        calc |roundTo 3 ((R / (R + 1)) * ((i : ℚ) * 0.02) + xD / (R + 1)) -
              ((R / (R + 1)) * ((i : ℚ) * 0.02) + xD / (R + 1))| ≤ 1 / (2 * 10 ^ 3) := this
          _ = 1 / 2000 := by norm_num
  · rw [generateMcCabeThieleData_eq, getElem_map_range _ _ _ (by omega)]
    simp only [mcPointAux]
    rw [if_pos (by norm_num : ((25:ℕ) : ℚ) * 0.02 ≤ 0.95)]
    have hx : roundTo 2 (((25:ℕ) : ℚ) * 0.02) = 0.5 := by
      rw [roundTo_eq_of 2 _ 50 (by norm_num) (by norm_num)]
      norm_num
    have hyEq : calculateEquilibriumY (((25:ℕ) : ℚ) * 0.02) 2.5 = 5 / 7 := by
      unfold calculateEquilibriumY
      norm_num
    have hyEqR : roundTo 3 ((5:ℚ) / 7) = 0.714 := by
      rw [roundTo_eq_of 3 _ 714 (by norm_num) (by norm_num)]
      norm_num
    have hyOp : (2 / (2 + 1)) * (((25:ℕ) : ℚ) * 0.02) + 0.95 / (2 + 1) = 13 / 20 := by
      norm_num
    have hyOpR : roundTo 3 ((13:ℚ) / 20) = 0.65 := by
      rw [roundTo_eq_of 3 _ 650 (by norm_num) (by norm_num)]
      norm_num
    rw [hx, hyEq, hyEqR, hyOp, hyOpR]

/-- Witness for C4 at `(alpha, R, xD) = (2.5, 2, 0.95)`. -/
theorem generateMcCabeThieleData_spec_witness :
    ((2:ℚ) ≠ -1 ∧ (0:ℚ) < 0.95 ∧ (0.95:ℚ) ≤ 1) ∧
      (generateMcCabeThieleData 2.5 2 0.95).length = 51 :=
  ⟨⟨by norm_num, by norm_num, by norm_num⟩,
    (generateMcCabeThieleData_spec 2.5 2 0.95 (by norm_num) (by norm_num)
      (by norm_num)).1⟩

/-- C10: for valid parameters `generateRayleighData` returns exactly 48 points
(the initial point plus 47 transition steps) regardless of `initialF`, because the
loop condition `i * (initialF/50) < 0.95 * initialF` holds exactly for `i ≤ 47`;
the final point has `percentDistilled = 94.0`; the initial point carries the
unrounded `initialXf` and `equilibrium(initialXf, alpha)`, while every later point
is rounded to 3 decimals. -/
theorem generateRayleighData_shape_spec (alpha initialF initialXf : ℚ)
    (ha : 1 < alpha) (hF : 0 < initialF) (h0 : 0 < initialXf) (h1 : initialXf < 1) :
    (generateRayleighData alpha initialF initialXf).length = 48 ∧
    (∀ i : ℕ, ((i : ℚ) * (initialF / 50) < initialF * 0.95 ↔ i ≤ 47)) ∧
    (generateRayleighData alpha initialF initialXf)[0]? =
      some ⟨0, initialXf, calculateEquilibriumY initialXf alpha⟩ ∧
    (∀ j : ℕ, j < 47 →
      (generateRayleighData alpha initialF initialXf)[j + 1]? =
        some ⟨roundTo 1 (2 * ((j : ℚ) + 1)),
              roundTo 3 (rayleighX alpha initialF initialXf (j + 1)),
              roundTo 3 (calculateEquilibriumY
                (rayleighX alpha initialF initialXf j) alpha)⟩) ∧
    ((generateRayleighData alpha initialF initialXf)[47]?.map
        RayleighPoint.percentDistilled = some 94) := by
  have hchar := generateRayleighData_eq alpha initialF initialXf hF
  refine ⟨?_, ?_, ?_, ?_, ?_⟩
  · rw [hchar]
    simp
  · intro i
    exact rayleigh_guard_iff initialF hF i
  · rw [hchar]
    rfl
  · intro j hj
    rw [hchar]
    rw [List.getElem?_cons_succ, getElem_map_range _ _ _ (by omega)]
    rfl
  · rw [hchar]
    rw [show (47:ℕ) = 46 + 1 from rfl, List.getElem?_cons_succ,
      getElem_map_range _ _ _ (by omega)]
    simp only [rayleighPointAux, Option.map_some']
    have h94 : roundTo 1 (2 * (((46:ℕ) : ℚ) + 1)) = 94 := by
      rw [show 2 * (((46:ℕ) : ℚ) + 1) = 94 by norm_num]
      rw [roundTo_eq_of 1 (94:ℚ) 940 (by norm_num) (by norm_num)]
      norm_num
    rw [h94]

/-- Witness for C10 at `(alpha, initialF, initialXf) = (3, 50, 1/2)`. -/
theorem generateRayleighData_shape_spec_witness :
    ((1:ℚ) < 3 ∧ (0:ℚ) < 50 ∧ (0:ℚ) < 1/2 ∧ (1:ℚ)/2 < 1) ∧
      (generateRayleighData 3 50 (1/2)).length = 48 :=
  ⟨⟨by norm_num, by norm_num, by norm_num, by norm_num⟩,
    (generateRayleighData_shape_spec 3 50 (1/2) (by norm_num) (by norm_num)
      (by norm_num) (by norm_num)).1⟩

/-- C1 (amended): for `alpha > 1`, `initialF > 0`, `initialXf ∈ (0,1)` the generator
terminates with a finite 48-point series, every emitted `residueComposition` is
nonnegative, and the emitted `residueComposition` is non-increasing from the second
point on; the claimed non-increase between the unrounded first point and the rounded
second point can fail (see the counterexample). -/
theorem generateRayleighData_residue_spec (alpha initialF initialXf : ℚ)
    (ha : 1 < alpha) (hF : 0 < initialF) (h0 : 0 < initialXf) (h1 : initialXf < 1) :
    (generateRayleighData alpha initialF initialXf).length = 48 ∧
    (∀ pt ∈ generateRayleighData alpha initialF initialXf,
      0 ≤ pt.residueComposition) ∧
    (∀ i : ℕ, 1 ≤ i → i + 1 ≤ 47 →
      ∀ p q : RayleighPoint,
        (generateRayleighData alpha initialF initialXf)[i]? = some p →
        (generateRayleighData alpha initialF initialXf)[i + 1]? = some q →
        q.residueComposition ≤ p.residueComposition) := by
  have hchar := generateRayleighData_eq alpha initialF initialXf hF
  refine ⟨?_, ?_, ?_⟩
  · rw [hchar]
    simp
  · intro pt hpt
    rw [hchar] at hpt
    rcases List.mem_cons.mp hpt with hhead | htail
    · rw [hhead]
      exact le_of_lt h0
    · obtain ⟨j, hj, hpt'⟩ := List.mem_map.mp htail
      rw [← hpt']
      simp only [rayleighPointAux]
      apply roundTo_nonneg
      have hj47 : j + 1 ≤ 47 := by
        have := List.mem_range.mp hj
        omega
      exact (rayleighX_bounds alpha initialF initialXf ha hF h0 h1 (j + 1) hj47).1
  · intro i hi1 hi47 p q hp hq
    obtain ⟨j, rfl⟩ : ∃ j, i = j + 1 := ⟨i - 1, by omega⟩
    rw [hchar, List.getElem?_cons_succ, getElem_map_range _ _ _ (by omega)] at hp
    rw [hchar, List.getElem?_cons_succ, getElem_map_range _ _ _ (by omega)] at hq
    have hp' : p = rayleighPointAux alpha initialF initialXf j :=
      (Option.some_inj.mp hp).symm
    have hq' : q = rayleighPointAux alpha initialF initialXf (j + 1) :=
      (Option.some_inj.mp hq).symm
    rw [hp', hq']
    simp only [rayleighPointAux]
    apply roundTo_mono
    exact rayleighX_mono alpha initialF initialXf ha hF h0 h1 (j + 1) (by omega)

/-- Witness for the amended C1 at `(alpha, initialF, initialXf) = (2, 100, 1/2)`. -/
theorem generateRayleighData_residue_spec_witness :
    ((1:ℚ) < 2 ∧ (0:ℚ) < 100 ∧ (0:ℚ) < 1/2 ∧ (1:ℚ)/2 < 1) ∧
      (generateRayleighData 2 100 (1/2)).length = 48 :=
  ⟨⟨by norm_num, by norm_num, by norm_num, by norm_num⟩,
    (generateRayleighData_residue_spec 2 100 (1/2) (by norm_num) (by norm_num)
      (by norm_num) (by norm_num)).1⟩

/-- Counterexample to C1 as stated: with `alpha = 21/20`, `initialF = 100`,
`initialXf = 0.4999` (all within the claimed parameter range), the first point
emits the unrounded residue `0.4999` while the second point emits the rounded
residue `0.500`, so the emitted `residueComposition` strictly increases between
the two successive points. -/
theorem generateRayleighData_monotone_counterexample :
    ((1:ℚ) < 21/20 ∧ (0:ℚ) < 100 ∧ (0:ℚ) < 4999/10000 ∧ (4999:ℚ)/10000 < 1) ∧
    (generateRayleighData (21/20) 100 (4999/10000))[0]?.map
        RayleighPoint.residueComposition = some (4999/10000) ∧
    (generateRayleighData (21/20) 100 (4999/10000))[1]?.map
        RayleighPoint.residueComposition = some (1/2) ∧
    (4999:ℚ)/10000 < 1/2 := by
  have hchar := generateRayleighData_eq (21/20) 100 (4999/10000) (by norm_num)
  refine ⟨⟨by norm_num, by norm_num, by norm_num, by norm_num⟩, ?_, ?_, by norm_num⟩
  · rw [hchar]
    rfl
  · rw [hchar]
    rw [show (1:ℕ) = 0 + 1 from rfl, List.getElem?_cons_succ,
      getElem_map_range _ _ _ (by omega)]
    simp only [rayleighPointAux, Option.map_some']
    have hX1 : rayleighX (21/20) 100 (4999/10000) 1 = 334598067/669663400 := by
      rw [show (1:ℕ) = 0 + 1 from rfl]
      simp only [rayleighX]
      rw [show calculateEquilibriumY (4999/10000) (21/20) = 34993/68333 by
        unfold calculateEquilibriumY; norm_num]
      rw [max_eq_right (by norm_num)]
      norm_num
    rw [hX1]
    have hround : roundTo 3 ((334598067:ℚ)/669663400) = 1/2 := by
      rw [roundTo_eq_of 3 _ 500 (by norm_num) (by norm_num)]
      norm_num
    rw [hround]

/-- C3 (amended): for every catalog substance and `minT < maxT` with
`minT + C > 0`: the temperature grid `minT + i*(maxT-minT)/50`, `i = 0..50`, spans
`[minT, maxT]` inclusive; `generateAntoineData` emits at most 51 points, starting
with the pair `{round1(minT), round2(10^(A - B/(minT + C)))}`; the unrounded grid
temperatures and the unrounded pressures `10^(A - B/(T+C))` are strictly
increasing along the grid, while the rounded fields are only nondecreasing —
strictness can fail when the step is below the rounding precision (see the
counterexample).  The exact point count (51 under exact arithmetic, 50 on many
ranges in the source's binary64 accumulation) is a floating-point artifact and is
deliberately not asserted; only the float-robust bound `≤ 51` is. -/
theorem generateAntoineData_spec (s : AntoineParams) (minT maxT : ℚ)
    (hs : s ∈ SUBSTANCES) (hT : minT < maxT) (hC : 0 < minT + s.C) :
    (generateAntoineData s minT maxT).length ≤ 51 ∧
    (generateAntoineData s minT maxT)[0]? =
      some ⟨roundTo 1 minT, roundTo 2 (calculateVaporPressure minT s)⟩ ∧
    (minT + (0 : ℚ) * ((maxT - minT) / 50) = minT ∧
      minT + (50 : ℚ) * ((maxT - minT) / 50) = maxT) ∧
    (∀ i j : ℕ, i < j →
      minT + (i : ℚ) * ((maxT - minT) / 50) < minT + (j : ℚ) * ((maxT - minT) / 50) ∧
      calculateVaporPressure (minT + (i : ℚ) * ((maxT - minT) / 50)) s <
        calculateVaporPressure (minT + (j : ℚ) * ((maxT - minT) / 50)) s) ∧
    (∀ i j : ℕ, i ≤ j →
      roundTo 1 (minT + (i : ℚ) * ((maxT - minT) / 50)) ≤
        roundTo 1 (minT + (j : ℚ) * ((maxT - minT) / 50)) ∧
      roundTo 2 (calculateVaporPressure (minT + (i : ℚ) * ((maxT - minT) / 50)) s) ≤
        roundTo 2 (calculateVaporPressure (minT + (j : ℚ) * ((maxT - minT) / 50)) s)) := by
  have hB : (0:ℚ) < s.B := by
    fin_cases hs <;> norm_num
  have hstep : (0:ℚ) < (maxT - minT) / 50 := by linarith
  have hgrid : ∀ i j : ℕ, i < j →
      minT + (i : ℚ) * ((maxT - minT) / 50) < minT + (j : ℚ) * ((maxT - minT) / 50) := by
    intro i j hij
    have : (i : ℚ) < (j : ℚ) := by exact_mod_cast hij
    nlinarith
  have hCgrid : ∀ i : ℕ, 0 < (minT + (i : ℚ) * ((maxT - minT) / 50)) + s.C := by
    intro i
    have h0 : (0:ℚ) ≤ (i : ℚ) * ((maxT - minT) / 50) := by positivity
    linarith
  have hpress : ∀ i j : ℕ, i < j →
      calculateVaporPressure (minT + (i : ℚ) * ((maxT - minT) / 50)) s <
        calculateVaporPressure (minT + (j : ℚ) * ((maxT - minT) / 50)) s := by
    intro i j hij
    exact vaporPressure_strictMono s hB (hCgrid i) (hgrid i j hij)
  refine ⟨?_, ?_, ?_, ?_, ?_⟩
  · rw [generateAntoineData_eq s minT maxT hT]
    simp
  · rw [generateAntoineData_eq s minT maxT hT, getElem_map_range _ _ _ (by omega)]
    simp only [antoinePointAux]
    rw [show minT + ((0:ℕ) : ℚ) * ((maxT - minT) / 50) = minT by norm_num]
  · constructor
    · ring
    · field_simp
  · intro i j hij
    exact ⟨hgrid i j hij, hpress i j hij⟩
  · intro i j hij
    rcases eq_or_lt_of_le hij with rfl | hlt
    · exact ⟨le_refl _, le_refl _⟩
    · exact ⟨roundTo_mono 1 (hgrid i j hlt).le, roundTo_mono 2 (hpress i j hlt).le⟩

/-- Witness for the amended C3 with Water on `[50, 100]`. -/
theorem generateAntoineData_spec_witness :
    ((⟨"Water", 8.07131, 1730.63, 233.426⟩ : AntoineParams) ∈ SUBSTANCES ∧
      (50:ℚ) < 100 ∧ (0:ℚ) < 50 + 233.426) ∧
    (generateAntoineData ⟨"Water", 8.07131, 1730.63, 233.426⟩ 50 100).length ≤ 51 :=
  ⟨⟨by simp [SUBSTANCES], by norm_num, by norm_num⟩,
    (generateAntoineData_spec ⟨"Water", 8.07131, 1730.63, 233.426⟩ 50 100
      (by simp [SUBSTANCES]) (by norm_num) (by norm_num)).1⟩

/-- Counterexample to C3 as stated: for Water on the physically sane range
`[0, 0.5]` (so `T + C > 0` throughout) the first two emitted temperatures are both
`0.0` after rounding to 1 decimal, so the emitted temperature (and hence the series
ordered by it) is not strictly increasing. -/
theorem generateAntoineData_strict_counterexample :
    ((⟨"Water", 8.07131, 1730.63, 233.426⟩ : AntoineParams) ∈ SUBSTANCES ∧
      (0:ℚ) < 1/2 ∧ (0:ℚ) < 0 + 233.426) ∧
    (generateAntoineData ⟨"Water", 8.07131, 1730.63, 233.426⟩ 0 (1/2))[0]?.map
        AntoinePoint.temperature = some 0 ∧
    (generateAntoineData ⟨"Water", 8.07131, 1730.63, 233.426⟩ 0 (1/2))[1]?.map
        AntoinePoint.temperature = some 0 := by
  have hchar := generateAntoineData_eq ⟨"Water", 8.07131, 1730.63, 233.426⟩ 0 (1/2)
    (by norm_num)
  refine ⟨⟨by simp [SUBSTANCES], by norm_num, by norm_num⟩, ?_, ?_⟩
  · rw [hchar, getElem_map_range _ _ _ (by omega)]
    simp only [antoinePointAux, Option.map_some']
    have h0 : (0:ℚ) + ((0:ℕ) : ℚ) * ((1/2 - 0) / 50) = 0 := by norm_num
    rw [h0, roundTo_zero]
  · rw [hchar, getElem_map_range _ _ _ (by omega)]
    simp only [antoinePointAux, Option.map_some']
    have h1 : (0:ℚ) + ((1:ℕ) : ℚ) * ((1/2 - 0) / 50) = 1/100 := by norm_num
    rw [h1]
    have hr : roundTo 1 ((1:ℚ)/100) = 0 := by
      rw [roundTo_eq_of 1 _ 0 (by norm_num) (by norm_num)]
      norm_num
    rw [hr]

/-- If the Antoine loop guard fails at entry, the loop emits nothing. -/
theorem antoineGo_nil (params : AntoineParams) (maxT step : ℚ) (fuel : ℕ) (t : ℚ)
    (h : ¬ t ≤ maxT) : antoineGo params maxT step fuel t = [] := by
  cases fuel with
  | zero => rfl
  | succ f => rw [antoineGo, if_neg h]

/-- With `minT = maxT` the Antoine step is 0, so the loop guard never fails: the
fuel-indexed embedding exhausts any fuel (the source loop does not terminate). -/
theorem antoineGo_stagnant (params : AntoineParams) (T : ℚ) :
    ∀ (fuel : ℕ) (t : ℚ), t ≤ T →
      (antoineGo params T ((T - T) / 50) fuel t).length = fuel := by
  intro fuel
  induction fuel with
  | zero => intro t ht; rfl
  | succ f ih =>
    intro t ht
    rw [antoineGo, if_pos ht]
    simp only [List.length_cons]
    rw [ih (t + (T - T) / 50) (by
      have h : t + (T - T) / 50 = t := by ring
      rw [h]
      exact ht)]

/-- C2 (amended): none of the generators validates its parameters or can fail;
every call returns a series (or, for Antoine at `minT = maxT`, never returns).
Invalid parameters flow into the computation: Rayleigh with `initialF ≤ 0`
returns just the initial point and with `alpha ≤ 1` (but `initialF > 0`) still
returns the usual 48-point series, heating with `k ≤ 0` returns `duration + 1`
points, McCabe-Thiele with `R = -1` still returns a nonempty series of at most
51 points (whose operating-line values are meaningless — NaN/Infinity in the
source's binary64 arithmetic, outside this exact embedding, which also runs the
loop one iteration longer than binary64 does; hence only the float-robust bounds
are asserted), Antoine with `minT > maxT` silently returns an empty series, and
at `minT = maxT` the Antoine loop guard never fails. -/
theorem generators_no_validation_spec :
    (∀ alpha initialXf initialF : ℚ, initialF ≤ 0 →
      generateRayleighData alpha initialF initialXf =
        [⟨0, initialXf, calculateEquilibriumY initialXf alpha⟩]) ∧
    (∀ alpha initialXf initialF : ℚ, alpha ≤ 1 → 0 < initialF →
      (generateRayleighData alpha initialF initialXf).length = 48) ∧
    (∀ (t0 tMax k : ℝ) (timeMinutes : ℕ), k ≤ 0 →
      (generateHeatingData t0 tMax k timeMinutes).length = timeMinutes + 1) ∧
    (∀ alpha xD : ℚ, 0 < (generateMcCabeThieleData alpha (-1) xD).length ∧
      (generateMcCabeThieleData alpha (-1) xD).length ≤ 51) ∧
    (∀ (s : AntoineParams) (minT maxT : ℚ), maxT < minT →
      generateAntoineData s minT maxT = []) ∧
    (∀ (s : AntoineParams) (T : ℚ) (fuel : ℕ),
      (antoineGo s T ((T - T) / 50) fuel T).length = fuel) := by
  refine ⟨?_, ?_, ?_, ?_, ?_, ?_⟩
  · intro alpha initialXf initialF hF
    simp only [generateRayleighData]
    rw [rayleighGo_nil _ _ _ _ _ _ _ (by intro hcon; nlinarith)]
  · intro alpha initialXf initialF _ hF
    rw [generateRayleighData_eq alpha initialF initialXf hF]
    simp
  · intro t0 tMax k d _
    simp [generateHeatingData]
  · intro alpha xD
    rw [generateMcCabeThieleData_eq]
    constructor <;> simp
  · intro s minT maxT hT
    simp only [generateAntoineData]
    exact antoineGo_nil s maxT _ 100 minT (by intro hcon; linarith)
  · intro s T fuel
    exact antoineGo_stagnant s T fuel T (le_refl T)

/-- Witness for the amended C2: `initialF = -1 ≤ 0` yields the single initial point. -/
theorem generators_no_validation_spec_witness :
    ((-1:ℚ) ≤ 0) ∧
      generateRayleighData 2 (-1) (1/2) = [⟨0, 1/2, calculateEquilibriumY (1/2) 2⟩] :=
  ⟨by norm_num, generators_no_validation_spec.1 2 (1/2) (-1) (by norm_num)⟩

/-- Counterexample to C2 as stated: `alpha = 1/2 ≤ 1` is an invalid parameter for
the Rayleigh generator, yet the call is not rejected and does not fail — it
returns a full 48-point series. -/
theorem generators_no_rejection_counterexample :
    ((1:ℚ)/2 ≤ 1) ∧ (generateRayleighData (1/2) 100 (3/5)).length = 48 := by
  refine ⟨by norm_num, ?_⟩
  rw [generateRayleighData_eq (1/2) 100 (3/5) (by norm_num)]
  simp

/-- C9 (amended): every generator call terminates except the Antoine loop at
`minT = maxT` (whose guard never fails, so the source loop never exits): Rayleigh
returns at most 48 points, McCabe-Thiele at most 51 (the binary64 source emits
exactly 50), Antoine at most 51 for `minT < maxT` (50 or 51 in binary64) and an
empty series for `minT > maxT`, and the four transient generators exactly
`duration + 1` points — 61 at the default duration 60 but beyond the claimed
51-61 bound for caller-supplied durations (121 points at duration 120). -/
theorem generators_termination_spec :
    (∀ alpha initialF initialXf : ℚ,
      (generateRayleighData alpha initialF initialXf).length ≤ 48) ∧
    (∀ alpha R xD : ℚ, (generateMcCabeThieleData alpha R xD).length ≤ 51) ∧
    (∀ (s : AntoineParams) (minT maxT : ℚ), minT < maxT →
      (generateAntoineData s minT maxT).length ≤ 51) ∧
    (∀ (s : AntoineParams) (minT maxT : ℚ), maxT < minT →
      generateAntoineData s minT maxT = []) ∧
    (∀ (s : AntoineParams) (T : ℚ) (fuel : ℕ) (t : ℚ), t ≤ T →
      (antoineGo s T ((T - T) / 50) fuel t).length = fuel) ∧
    (∀ (t0 tMax k : ℝ) (d : ℕ), (generateHeatingData t0 tMax k d).length = d + 1) ∧
    (∀ (initial final k : ℝ) (d : ℕ),
      (generateConductivityData initial final k d).length = d + 1) ∧
    (∀ (p e : ℝ) (d : ℕ), (generateFlowData p e d).length = d + 1) ∧
    (∀ (p c : ℚ) (d : ℕ), (generatePowerData p c d).length = d + 1) := by
  refine ⟨?_, ?_, ?_, ?_, ?_, ?_, ?_, ?_, ?_⟩
  · intro alpha initialF initialXf
    rcases le_or_lt initialF 0 with hF | hF
    · simp only [generateRayleighData]
      rw [rayleighGo_nil _ _ _ _ _ _ _ (by intro hcon; nlinarith)]
      simp
    · rw [generateRayleighData_eq alpha initialF initialXf hF]
      simp
  · intro alpha R xD
    rw [generateMcCabeThieleData_eq]
    simp
  · intro s minT maxT hT
    rw [generateAntoineData_eq s minT maxT hT]
    simp
  · intro s minT maxT hT
    simp only [generateAntoineData]
    exact antoineGo_nil s maxT _ 100 minT (by intro hcon; linarith)
  · intro s T fuel
    exact antoineGo_stagnant s T fuel
  · intro t0 tMax k d
    simp [generateHeatingData]
  · intro i f k d
    simp [generateConductivityData]
  · intro p e d
    rw [generateFlowData_eq]
    simp
  · intro p c d
    simp [generatePowerData]

/-- Witness for the amended C9: Antoine on `[0, 50]` (Ethanol) is bounded by 51
points. -/
theorem generators_termination_spec_witness :
    ((0:ℚ) < 50) ∧
      (generateAntoineData ⟨"Ethanol", 8.20417, 1642.89, 230.300⟩ 0 50).length ≤ 51 :=
  ⟨by norm_num, generators_termination_spec.2.2.1
    ⟨"Ethanol", 8.20417, 1642.89, 230.300⟩ 0 50 (by norm_num)⟩

/-- Counterexample to C9 as stated: the duration is caller-supplied, and with
`duration = 120` the heating generator performs 121 iterations, exceeding the
claimed 51-61 iteration bound. -/
theorem generators_termination_counterexample :
    (generateHeatingData 20 100 0.1 120).length = 121 ∧ ¬ ((121:ℕ) ≤ 61) := by
  constructor
  · simp [generateHeatingData]
  · norm_num
